import Mathlib

/-!
Verification development for the `abe` application framework (Go).

The definitions below are a shallow embedding of the framework's core
subsystems: the plugin manager (`src/plugin.go`), the middleware registry
(`src/unnamed/part_010`), the request-scoped DI container middleware
(`src/container_middleware.go`), the error-handler middleware
(`src/error_handler.go`), and the engine lifecycle (`src/abe.go`).

Go maps are modelled as association lists with first-match lookup (map
insertion conses a fresh binding; the code only inserts keys it has just
checked to be absent, so lookup agrees with Go map semantics).  Go errors
are modelled as `Option String` / `Except`- style results, panics as
`Except.error`, and byte-level string operations are modelled on `Char`
lists (all strings involved are ASCII).
-/

namespace Abe

/-- First-match association-list lookup, modelling a read of a Go `map`. -/
def lookupA {α : Type} : List (String × α) → String → Option α
  | [], _ => none
  | (k, v) :: rest, s => if k = s then some v else lookupA rest s

/-- Go `m[k]` with a default for a missing key (Go returns the zero value). -/
def getA {α : Type} (l : List (String × α)) (s : String) (dfl : α) : α :=
  match lookupA l s with
  | some v => v
  | none => dfl

/-! ### Decimal rendering of natural numbers

Models Go's `fmt.Sprintf("%d", n)` (and the numeric part of
`strconv`-style formatting).  Injectivity of the rendering is what makes
the plugin manager's `makeAliasUnique` suffix search terminate with a
fresh alias. -/

/-- The decimal digit character for `d < 10` (`'0'` has code 48). -/
def digitChar10 (d : Nat) : Char := Char.ofNat (48 + d)

/-- Decimal digits of `n`, most significant first, as natural numbers. -/
def natDigits (n : Nat) : List Nat :=
  if n < 10 then [n]
  else natDigits (n / 10) ++ [n % 10]
  decreasing_by exact Nat.div_lt_self (by omega) (by omega)

/-- Decimal digit characters of `n`, modelling Go's `%d` formatting. -/
def decDigits (n : Nat) : List Char := (natDigits n).map digitChar10

/-- Decimal string of a natural number (`fmt.Sprintf("%d", n)`). -/
def decStr (n : Nat) : String := ⟨decDigits n⟩

/-! ### ASCII string helpers

Models of `strings.ToLower`, `strings.TrimSpace` and `strings.LastIndex`
as used by `src/plugin.go`.  Go works on bytes; every string the framework
manipulates here (config keys, modes, plugin keys) is ASCII, where byte
indices and character indices coincide. -/

/-- ASCII lowercase of a character (`strings.ToLower`, ASCII fragment). -/
def charToLower (c : Char) : Char :=
  if 'A' ≤ c ∧ c ≤ 'Z' then Char.ofNat (c.toNat + 32) else c

/-- `strings.ToLower` on ASCII strings. -/
def strToLower (s : String) : String := ⟨s.data.map charToLower⟩

/-- ASCII whitespace predicate (`unicode.IsSpace`, ASCII fragment). -/
def isSpaceChar (c : Char) : Bool :=
  c = ' ' || c = '\t' || c = '\n' || c = '\r'

/-- `strings.TrimSpace` on ASCII strings. -/
def trimSpace (s : String) : String :=
  ⟨List.reverse (List.dropWhile isSpaceChar
      (List.reverse (List.dropWhile isSpaceChar s.data)))⟩

/-- Index of the last occurrence of `c` (`strings.LastIndex` for a
one-character needle; `none` models Go's `-1`). -/
def lastIdxC : List Char → Char → Option Nat
  | [], _ => none
  | x :: xs, c =>
    match lastIdxC xs c with
    | some j => some (j + 1)
    | none => if x = c then some 0 else none

/-! ### Plugin manager (src/plugin.go) -/

/-- `shortSourceFromKey` of src/plugin.go: extract the short source
identifier (last package-path segment) from a unique key. -/
def shortSourceFromKey (key : String) : String :=
  match lastIdxC key.data '.' with
  | some idx =>
    if 0 < idx then
      let pkg := key.data.take idx
      match lastIdxC pkg '/' with
      | some i2 => ⟨pkg.drop (i2 + 1)⟩
      | none =>
        match lastIdxC pkg '.' with
        | some i3 => ⟨pkg.drop (i3 + 1)⟩
        | none => ⟨pkg⟩
    else key
  | none => key

/-- The viper configuration surface consumed by the plugin manager and the
engine lifecycle, as an abstract read-only key/value oracle. -/
structure Config where
  isSet : String → Bool
  getBool : String → Bool
  getString : String → String
  getDuration : String → Int

/-- Outcome of invoking one lifecycle hook of a plugin: returns `nil`,
returns an error, or panics. -/
inductive HookOutcome
  | ok
  | err (msg : String)
  | panics (msg : String)
deriving DecidableEq

/-- A plugin value.  `pkgPath`/`typeName` model the reflected identity
(`reflect.TypeOf(p)`); a `none` hook field models a plugin that does not
implement the corresponding optional interface; `initErr` is the result of
its `Init` (Go side effects are out of scope beyond the error value). -/
structure Plugin where
  pkgPath : String
  typeName : String
  name : String
  version : String
  minEngineVersion : Option String := none
  initErr : Option String := none
  beforeMount : Option HookOutcome := none
  afterMount : Option HookOutcome := none
  beforeServerStart : Option HookOutcome := none
  onShutdown : Option HookOutcome := none
deriving DecidableEq

/-- The unique key of a plugin: `t.PkgPath() + "." + t.Name()`. -/
def pluginKey (p : Plugin) : String := p.pkgPath ++ "." ++ p.typeName

/-- State of `PluginManager` (the `aliasOf` field is the Go `alias` map,
renamed to avoid clashing with a Lean keyword). -/
structure PluginManager where
  plugins : List Plugin := []
  index : List (String × Plugin) := []
  aliasOf : List (String × String) := []
  aliasIndex : List (String × String) := []
  nameIndex : List (String × List String) := []
deriving DecidableEq

/-- `newPluginManager`: all maps empty. -/
def emptyPM : PluginManager := {}

/-- The engine version constant `Version` of src/abe.go. -/
def engineVersion : String := "1.0.0"

/-- `ErrDuplicatePlugin` of src/plugin.go. -/
def ErrDuplicatePlugin (name : String) : String := "duplicate plugin: " ++ name

/-- The enabled/disabled resolution at the top of `Register`: default
`true`, overridden by `plugins.enabled`, overridden by
`plugins.enable.<unique_key>`. -/
def pluginEnabled (cfg : Config) (key : String) : Bool :=
  let e1 := if cfg.isSet "plugins.enabled" then cfg.getBool "plugins.enabled" else true
  let perKey := "plugins.enable." ++ key
  if cfg.isSet perKey then cfg.getBool perKey else e1

/-- Conflict mode: `plugins.conflict_mode`, lower-cased, defaulting to
`"alias"` when empty. -/
def conflictMode (cfg : Config) : String :=
  let m := strToLower (cfg.getString "plugins.conflict_mode")
  if m = "" then "alias" else m

/-- `normalizeAlias` of src/plugin.go (trim whitespace). -/
def normalizeAlias (a : String) : String := trimSpace a

/-- Semantic-version parse of a plain `x.y.z` string (the fragment of the
`semver` library the version gate exercises; pre-release/build metadata
would fail to parse, which `Register` treats as warn-and-continue). -/
def parseSemverNum (s : List Char) : Option Nat :=
  if s ≠ [] ∧ s.all (fun c => decide ('0' ≤ c ∧ c ≤ '9')) then
    some (s.foldl (fun a c => a * 10 + (c.toNat - 48)) 0)
  else none

/-- Split a character list on a separator character. -/
def splitOnChar : List Char → Char → List (List Char)
  | [], _ => [[]]
  | x :: xs, c =>
    let r := splitOnChar xs c
    if x = c then [] :: r
    else
      match r with
      | [] => [[x]]
      | h :: t => (x :: h) :: t

/-- Parse `"x.y.z"` into its three numeric components. -/
def parseSemver (s : String) : Option (Nat × Nat × Nat) :=
  match (splitOnChar s.data '.').map parseSemverNum with
  | [some a, some b, some c] => some (a, b, c)
  | _ => none

/-- `cur ≥ lo` on semantic versions (the `>= min` constraint check). -/
def semverGE (cur lo : Nat × Nat × Nat) : Bool :=
  if cur.1 ≠ lo.1 then decide (cur.1 > lo.1)
  else if cur.2.1 ≠ lo.2.1 then decide (cur.2.1 > lo.2.1)
  else decide (cur.2.2 ≥ lo.2.2)

/-- Candidate alias with a numeric suffix: `fmt.Sprintf("%s-%d", alias, k)`. -/
def aliasCand (a : String) (k : Nat) : String := a ++ "-" ++ decStr k

/-- The suffix-search loop of `makeAliasUnique`.  The Go loop runs until a
free candidate is found; it is given `|aliasIndex| + 1` iterations of fuel
here, which `makeAliasUniqueGo_fresh` below proves is always enough (the
fuel-exhausted branch is unreachable). -/
def makeAliasUniqueGo (ai : List (String × String)) (a : String) : Nat → Nat → String
  | 0, k => aliasCand a k
  | fuel + 1, k =>
    let c := aliasCand a k
    if lookupA ai c = none then c else makeAliasUniqueGo ai a fuel (k + 1)

/-- `makeAliasUnique` of src/plugin.go: append an incrementing suffix
starting at 2 until the alias is unused. -/
def makeAliasUnique (ai : List (String × String)) (a : String) : String :=
  makeAliasUniqueGo ai a (ai.length + 1) 2

/-- `generateAlias` of src/plugin.go. -/
def generateAlias (ai : List (String × String)) (name key : String) : String :=
  let src := shortSourceFromKey key
  let base := name ++ "@" ++ src
  if lookupA ai base = none then base else makeAliasUnique ai base

/-- Result of `Register`: the returned error (`none` = `nil`), the manager
state afterwards, and whether the plugin's `Init` was invoked. -/
structure RegResult where
  err : Option String
  pm : PluginManager
  initCalled : Bool
deriving DecidableEq

/-- The final recording step of a successful `Register` (list append plus
the four index insertions). -/
def recordPlugin (pm : PluginManager) (p : Plugin) (key name : String)
    (conflictKeys : List String) (a : String) : PluginManager :=
  { plugins := pm.plugins ++ [p]
    index := (key, p) :: pm.index
    aliasOf := if a ≠ "" then (key, a) :: pm.aliasOf else pm.aliasOf
    aliasIndex := if a ≠ "" then (a, key) :: pm.aliasIndex else pm.aliasIndex
    nameIndex := (name, conflictKeys ++ [key]) :: pm.nameIndex }

/-- `PluginManager.Register` of src/plugin.go (lines 84-190): enabled
check, duplicate-key rejection, version-compatibility gate, conflict-mode
resolution, alias uniqueness, `Init`, then recording. -/
def Register (cfg : Config) (pm : PluginManager) (p : Plugin) : RegResult :=
  let key := pluginKey p
  let name := p.name
  if ¬ pluginEnabled cfg key then
    { err := none, pm := pm, initCalled := false }
  else if (lookupA pm.index key).isSome then
    { err := some (ErrDuplicatePlugin key), pm := pm, initCalled := false }
  else
    let minEngine := match p.minEngineVersion with
      | none => ""
      | some s => trimSpace s
    let versionReject : Bool :=
      if minEngine = "" then false
      else
        match parseSemver engineVersion, parseSemver minEngine with
        | some cur, some lo =>
          if semverGE cur lo then false else cfg.getBool "plugins.compat.strict"
        | _, _ => false
    if versionReject then
      { err := some ("engine version " ++ engineVersion ++ " does not satisfy >= "
          ++ minEngine ++ " for plugin " ++ name),
        pm := pm, initCalled := false }
    else
      let mode := conflictMode cfg
      let alias0 := normalizeAlias (cfg.getString ("plugins.aliases." ++ key))
      let conflictKeys := getA pm.nameIndex name []
      let hasConflict := conflictKeys ≠ []
      if alias0 = "" ∧ hasConflict ∧ mode = "error" then
        { err := some (ErrDuplicatePlugin name), pm := pm, initCalled := false }
      else
        let alias1 := if alias0 = "" ∧ hasConflict then generateAlias pm.aliasIndex name key else alias0
        let alias2 := if alias1 ≠ "" ∧ (lookupA pm.aliasIndex alias1).isSome
          then makeAliasUnique pm.aliasIndex alias1 else alias1
        match p.initErr with
        | some e => { err := some e, pm := pm, initCalled := true }
        | none =>
          { err := none
            pm := recordPlugin pm p key name conflictKeys alias2
            initCalled := true }

/-- `PluginManager.List`: snapshot of the registered plugins. -/
def ListPlugins (pm : PluginManager) : List Plugin := pm.plugins

/-- Fold a sequence of registrations from the empty manager (keeping only
the manager state, as the Go callers do when ignoring the error). -/
def registerAll (cfg : Config) (ps : List Plugin) : PluginManager :=
  ps.foldl (fun pm p => (Register cfg pm p).pm) emptyPM

/-- The hook failure mode: `plugins.hook_failure_mode`, lower-cased,
defaulting to `"warn"`. -/
def hookFailureMode (cfg : Config) : String :=
  let m := strToLower (cfg.getString "plugins.hook_failure_mode")
  if m = "" then "warn" else m

/-- The shared per-phase dispatch loop of src/plugin.go: walk the plugins
in registration order; a `none` hook is skipped; an error or panic aborts
(as `Except.error`) only when the mode is `"error"` and the phase is
abortable (`OnShutdown` never aborts).  On normal completion it returns
the keys of the plugins whose hook was invoked, in order. -/
def dispatchHooks (mode : String) (abortable : Bool) :
    List (String × Option HookOutcome) → Except String (List String)
  | [] => .ok []
  | (_, none) :: rest => dispatchHooks mode abortable rest
  | (k, some .ok) :: rest => (dispatchHooks mode abortable rest).map (fun l => k :: l)
  | (k, some (.err m)) :: rest =>
    if abortable ∧ mode = "error" then .error ("plugin hook failed: " ++ m)
    else (dispatchHooks mode abortable rest).map (fun l => k :: l)
  | (k, some (.panics m)) :: rest =>
    if abortable ∧ mode = "error" then .error ("plugin panic in hook: " ++ m)
    else (dispatchHooks mode abortable rest).map (fun l => k :: l)

/-- The keys of the plugins implementing a given optional hook, in
registration order. -/
def implementers (f : Plugin → Option HookOutcome) (ps : List Plugin) : List String :=
  (ps.filter (fun p => (f p).isSome)).map pluginKey

/-- `PluginManager.OnBeforeMount`. -/
def OnBeforeMount (cfg : Config) (pm : PluginManager) : Except String (List String) :=
  dispatchHooks (hookFailureMode cfg) true (pm.plugins.map (fun p => (pluginKey p, p.beforeMount)))

/-- `PluginManager.OnAfterMount`. -/
def OnAfterMount (cfg : Config) (pm : PluginManager) : Except String (List String) :=
  dispatchHooks (hookFailureMode cfg) true (pm.plugins.map (fun p => (pluginKey p, p.afterMount)))

/-- `PluginManager.OnBeforeServerStart`. -/
def OnBeforeServerStart (cfg : Config) (pm : PluginManager) : Except String (List String) :=
  dispatchHooks (hookFailureMode cfg) true
    (pm.plugins.map (fun p => (pluginKey p, p.beforeServerStart)))

/-- `PluginManager.OnShutdown`: same loop, but the recovery/error branches
never re-panic (the shutdown phase never aborts). -/
def OnShutdown (cfg : Config) (pm : PluginManager) : Except String (List String) :=
  dispatchHooks (hookFailureMode cfg) false (pm.plugins.map (fun p => (pluginKey p, p.onShutdown)))

/-! ### Middleware registry (src/unnamed/part_010) -/

/-- The three error values of the middleware manager
(`ErrDuplicateName`, `ErrNotFound`, `ErrInvalidMerge`). -/
inductive MWError
  | duplicateName
  | notFound
  | invalidMerge
deriving DecidableEq

/-- `MiddlewareManager` state; `H` abstracts `gin.HandlerFunc`. -/
structure MWState (H : Type) where
  globals : List H := []
  shared : List (String × H) := []
  groups : List (String × List H) := []
deriving DecidableEq

/-- `flattenGroupsLocked`: concatenate the named groups' handler lists in
order, failing with `invalidMerge` when a name repeats (the visited set)
and `notFound` when a name is not a group. -/
def flattenGroupsLocked {H : Type} (groups : List (String × List H)) :
    List String → List String → Except MWError (List H)
  | [], _ => .ok []
  | gn :: rest, visited =>
    if gn ∈ visited then .error .invalidMerge
    else
      match lookupA groups gn with
      | none => .error .notFound
      | some gs => (flattenGroupsLocked groups rest (gn :: visited)).map (fun r => gs ++ r)

/-- `MiddlewareManager.CreateGroupFromGroups`.  On error the state is
unchanged (the Go method returns before mutating the map). -/
def CreateGroupFromGroups {H : Type} (st : MWState H) (name : String)
    (groupNames : List String) : Except MWError (MWState H) :=
  if name = "" then .error .invalidMerge
  else if (lookupA st.groups name).isSome then .error .duplicateName
  else
    match flattenGroupsLocked st.groups groupNames [] with
    | .error e => .error e
    | .ok hs => .ok { st with groups := (name, hs) :: st.groups }

/-- `MiddlewareManager.CreateGroup` (from raw handlers). -/
def CreateGroup {H : Type} (st : MWState H) (name : String) (handlers : List H) :
    Except MWError (MWState H) :=
  if name = "" then .error .invalidMerge
  else if (lookupA st.groups name).isSome then .error .duplicateName
  else .ok { st with groups := (name, handlers) :: st.groups }

/-! ### Request-scoped DI container (src/container_middleware.go) -/

/-- A `do.Injector`: an identity (to expose the per-request freshness
boundary) plus the registered pre-built values, keyed by service type
name; `V` abstracts the service values. -/
structure Injector (V : Type) where
  injId : Nat
  values : List (String × V) := []
deriving DecidableEq

/-- `do.ProvideValue`: register a pre-built singleton value. -/
def provideValue {V : Type} (inj : Injector V) (ty : String) (v : V) : Injector V :=
  { inj with values := (ty, v) :: inj.values }

/-- Resolution of a service from the container (`do.Invoke`): a pure
lookup of the registered value. -/
def invokeService {V : Type} (inj : Injector V) (ty : String) : Option V :=
  lookupA inj.values ty

/-- The engine's shared singleton services, abstracted to values of `V`. -/
structure EngineServices (V : Type) where
  config : V
  logger : V
  db : V
  eventBus : V
  pool : V
  enforcer : V
  authManager : V
deriving DecidableEq

/-- Modelled from the spec: `Engine.doPackage` is invoked by
`containerMiddleware` (src/container_middleware.go line 17) but its
definition is not among the sources.  Per the spec (section 4.1) it
registers "the engine's shared singletons (configuration, logger,
datastore handle, event bus, worker pool, policy enforcer, auth manager)
as pre-built values" in the request scope. -/
def doPackage {V : Type} (e : EngineServices V) (inj : Injector V) : Injector V :=
  provideValue (provideValue (provideValue (provideValue (provideValue (provideValue
    (provideValue inj "config" e.config) "logger" e.logger) "db" e.db)
    "eventBus" e.eventBus) "pool" e.pool) "enforcer" e.enforcer) "authManager" e.authManager

/-- The injector as populated at request entry: `do.New()` (a fresh
identity), `engine.doPackage`, then `do.ProvideValue(.., GetRequestMeta(ctx))`. -/
def requestInjector {V : Type} (e : EngineServices V) (meta : V) (freshId : Nat) :
    Injector V :=
  provideValue (doPackage e { injId := freshId, values := [] }) "RequestMeta" meta

/-- Observable events of one request through `containerMiddleware`:
container creation, the opaque steps of the downstream handler chain
(`ctx.Next()`), and container shutdown. -/
inductive REvent
  | containerCreated (id : Nat)
  | chainStep (n : Nat)
  | containerShutdown (id : Nat)
deriving DecidableEq

/-- `containerMiddleware`: create the request scope, populate it, run the
chain, then `requestScope.Shutdown()`.  Returns the populated injector and
the event trace of the request. -/
def containerMiddleware {V : Type} (e : EngineServices V) (meta : V) (freshId : Nat)
    (chain : List Nat) : Injector V × List REvent :=
  let inj := requestInjector e meta freshId
  (inj, REvent.containerCreated freshId :: (chain.map REvent.chainStep
      ++ [REvent.containerShutdown freshId]))

/-- Process one request, threading a fresh-identity counter (each
`do.New()` yields a distinct container instance). -/
def handleRequest {V : Type} (e : EngineServices V) (meta : V) (counter : Nat)
    (chain : List Nat) : (Injector V × List REvent) × Nat :=
  (containerMiddleware e meta counter chain, counter + 1)

/-- Whether an event is a container shutdown. -/
def REvent.isShutdown : REvent → Bool
  | .containerShutdown _ => true
  | _ => false

/-! ### Error handler (src/error_handler.go) -/

/-- `ErrorDetail`. -/
structure ErrorDetail where
  field : String := ""
  reason : String
deriving DecidableEq

/-- `ErrorResponse`: the uniform envelope (business code, message,
detail list). -/
structure ErrorResponse where
  code : Nat
  message : String
  details : List ErrorDetail := []
deriving DecidableEq

/-- A single field error of the `validator` library: the original struct
field name, the (possibly translated) field name and the failed tag. -/
structure FieldErr where
  structField : String
  fieldName : String
  tag : String
deriving DecidableEq

/-- The error shapes `classifyError`/`determineHTTPStatus` distinguish.
`rateStr` carries the pre-rendered `%.1f` rate (floating-point rendering
is abstracted to the already-formatted string). -/
inductive AbeError
  | validationErrors (fes : List FieldErr)
  | validationError (msg : String) (details : List ErrorDetail)
  | notFoundError (resource id : String)
  | conflictError (msg field : String)
  | rateLimitError (scope rule rateStr : String) (burst retryAfter : Nat)
  | invalidJSONError (reason : String)
  | sentinelUnauthorized
  | sentinelForbidden
  | sentinelInternal
  | gormRecordNotFound
  | gormDuplicatedKey
  | ctxDeadlineExceeded
  | ctxCanceled
  | other (msg : String)
deriving DecidableEq

/-- `lowerFirst` of src/error_handler.go (first byte lower-cased). -/
def lowerFirst (s : String) : String :=
  match s.data with
  | [] => s
  | c :: cs => ⟨charToLower c :: cs⟩

/-- `translateFieldError`: use the request's translator when available and
non-empty, else the fallback composition. -/
def translateFieldError (trans : Option (FieldErr → String)) (fe : FieldErr) : String :=
  match trans with
  | some t => if t fe ≠ "" then t fe else fe.fieldName ++ " 字段验证失败: " ++ fe.tag
  | none => fe.fieldName ++ " 字段验证失败: " ++ fe.tag

/-- `buildValidationResponse`. -/
def buildValidationResponse (trans : Option (FieldErr → String)) (fes : List FieldErr) :
    ErrorResponse :=
  { code := 1001
    message := "输入验证失败"
    details := fes.map (fun fe =>
      { field := lowerFirst fe.structField, reason := translateFieldError trans fe }) }

/-- `classifyError`: map an error to the uniform envelope. -/
def classifyError (trans : Option (FieldErr → String)) : AbeError → ErrorResponse
  | .validationErrors fes => buildValidationResponse trans fes
  | .validationError msg ds => { code := 1001, message := msg, details := ds }
  | .notFoundError res id =>
    { code := 3001
      message := if id ≠ "" then res ++ "[" ++ id ++ "]不存在" else res ++ "不存在" }
  | .conflictError msg f =>
    { code := 3003, message := msg
      details := if f ≠ "" then [{ field := f, reason := "字段值冲突" }] else [] }
  | .rateLimitError scope _ rate burst retryAfter =>
    { code := 4001
      message := "请求过于频繁，请 " ++ decStr retryAfter ++ " 秒后重试"
      details := [{ field := "rate_limit"
                    reason := scope ++ "级限流触发: 速率" ++ rate ++ "req/s, 容量"
                      ++ decStr burst ++ ", " ++ decStr retryAfter ++ "秒后重试" }] }
  | .invalidJSONError reason =>
    { code := 1002, message := "请求数据格式错误", details := [{ reason := reason }] }
  | .sentinelUnauthorized => { code := 2001, message := "未授权" }
  | .sentinelForbidden => { code := 2101, message := "无权限访问" }
  | .gormRecordNotFound => { code := 3001, message := "记录不存在" }
  | .gormDuplicatedKey => { code := 3002, message := "记录已存在" }
  | .ctxDeadlineExceeded => { code := 6002, message := "请求处理超时" }
  | .ctxCanceled => { code := 5001, message := "请求已取消" }
  | .sentinelInternal => { code := 1001, message := "internal server error" }
  | .other msg => { code := 1001, message := msg }

/-- `determineHTTPStatus`: `HTTPStatus`-interface implementors first, then
the sentinel mappings, else 400. -/
def determineHTTPStatus : AbeError → Nat
  | .validationError _ _ => 400
  | .notFoundError _ _ => 404
  | .conflictError _ _ => 409
  | .rateLimitError _ _ _ _ _ => 429
  | .invalidJSONError _ => 400
  | .sentinelUnauthorized => 401
  | .sentinelForbidden => 403
  | .gormRecordNotFound => 404
  | .gormDuplicatedKey => 409
  | .ctxDeadlineExceeded => 504
  | .sentinelInternal => 500
  | _ => 400

/-- `ErrorHandlerMiddleware` (after `ctx.Next()`): no collected errors —
leave the response alone; otherwise classify exactly the last collected
error and abort with the resulting status and envelope. -/
def errorHandlerMiddleware (trans : Option (FieldErr → String))
    (collected : List AbeError) : Option (Nat × ErrorResponse) :=
  match collected.getLast? with
  | none => none
  | some e => some (determineHTTPStatus e, classifyError trans e)

/-! ### Generic invocation helper and recovery (src/container_middleware.go,
src/abe_router.go) -/

/-- `do.MustInvokeStruct`: resolve the use-case service from the request
scope, panicking (modelled as `Except.error`) when it is not registered. -/
def mustInvokeStruct {V : Type} (inj : Injector V) (ty : String) : Except String V :=
  match invokeService inj ty with
  | some v => .ok v
  | none => .error ("DI: could not find service " ++ ty)

/-- What a request ends up answering: a bare status line with no body
(`ctx.AbortWithStatus`), the uniform envelope (`ctx.AbortWithStatusJSON`),
or an untouched response. -/
inductive HTTPOutcome
  | bare (status : Nat)
  | envelope (status : Nat) (resp : ErrorResponse)
  | untouched
deriving DecidableEq

/-- Whether the outcome is a structured envelope response. -/
def HTTPOutcome.isEnvelope : HTTPOutcome → Bool
  | .envelope _ _ => true
  | _ => false

/-- A request running `Invoke[T]` inside the recovery and error-handler
middlewares: `ginRecovery` turns a panic (here: the
`do.MustInvokeStruct` resolution failure) into `AbortWithStatus(500)` —
the error-handler middleware's post-`Next` code never runs on that path,
because the panic unwinds through it.  Without a panic, `Invoke` records
the use case's error on the context and the error-handler middleware
classifies the last collected error into the envelope. -/
def invokePipeline {V R : Type} (trans : Option (FieldErr → String)) (inj : Injector V)
    (ty : String) (handle : V → Except AbeError R) : HTTPOutcome :=
  match mustInvokeStruct inj ty with
  | .error _ => .bare 500
  | .ok uc =>
    let collected := match handle uc with
      | .error e => [e]
      | .ok _ => []
    match errorHandlerMiddleware trans collected with
    | none => .untouched
    | some (st, resp) => .envelope st resp

/-! ### Engine lifecycle (src/abe.go) -/

/-- `defaultShutdownTimeout` (5 seconds), in nanoseconds as Go durations
are. -/
def defaultShutdownTimeoutNanos : Int := 5000000000

/-- The timeout actually passed to `httpServer.Shutdown`:
`server.shutdown_timeout` when positive, else the 5-second default. -/
def effectiveShutdownTimeout (cfg : Config) : Int :=
  let t := cfg.getDuration "server.shutdown_timeout"
  if t ≤ 0 then defaultShutdownTimeoutNanos else t

/-- Environment outcomes of the external shutdown effects: whether the
HTTP server fails to drain within the timeout, and whether closing the
event bus returns an error. -/
structure ShutdownEnv where
  httpDrainErr : Option String := none
  eventBusCloseErr : Option String := none
deriving DecidableEq

/-- The observable steps of `Engine.shutdown`, in execution order. -/
inductive SStep
  | pluginShutdownHooks (invoked : List String)
  | cronStopWait
  | httpServerShutdown (timeoutNanos : Int)
  | eventBusClose (loggedErr : Option String)
  | poolRelease
deriving DecidableEq

/-- `Engine.shutdown` (src/abe.go line 444): plugin shutdown hooks, cron
stop + wait, graceful HTTP shutdown (panic on failure), event-bus close
(error only logged), pool release.  Returns the executed steps and the
panic message if the process aborted. -/
def engineShutdown (cfg : Config) (pm : PluginManager) (env : ShutdownEnv) :
    List SStep × Option String :=
  let hooks := match OnShutdown cfg pm with
    | .ok invoked => invoked
    | .error _ => []
  let t := effectiveShutdownTimeout cfg
  match env.httpDrainErr with
  | some e =>
    ([SStep.pluginShutdownHooks hooks, SStep.cronStopWait],
      some ("优雅退出服务器失败：" ++ e))
  | none =>
    ([SStep.pluginShutdownHooks hooks, SStep.cronStopWait,
      SStep.httpServerShutdown t, SStep.eventBusClose env.eventBusCloseErr,
      SStep.poolRelease], none)

/-- The controller-mounting state of the engine: the provider registry,
the `sync.Once` latch, and the providers whose routes were registered (in
order); `C` abstracts `ControllerProvider`. -/
structure ControllerState (C : Type) where
  controllerRegistry : List C := []
  mountDone : Bool := false
  mounted : List C := []
deriving DecidableEq

/-- `Engine.AddController`: append the providers (no-op on an empty call). -/
def AddController {C : Type} (e : ControllerState C) (providers : List C) :
    ControllerState C :=
  if providers.isEmpty then e
  else { e with controllerRegistry := e.controllerRegistry ++ providers }

/-- `Engine.mountControllers`: under the once-latch, snapshot the registry
and register every provider's routes in order; repeated calls are inert. -/
def mountControllers {C : Type} (e : ControllerState C) : ControllerState C :=
  if e.mountDone then e
  else { e with mountDone := true, mounted := e.controllerRegistry }

/-- The alias bookkeeping invariant of the plugin manager: the recorded
aliases (values of the key-to-alias map) coincide, in insertion order,
with the keys of the alias-to-key map, and those are pairwise distinct. -/
def AliasInv (pm : PluginManager) : Prop :=
  pm.aliasOf.map Prod.snd = pm.aliasIndex.map Prod.fst ∧
    (pm.aliasIndex.map Prod.fst).Nodup

/-! ### Concrete sample inputs (used by witnesses and scenarios) -/

/-- A configuration with nothing set: every key missing, zero values. -/
def cfgNone : Config :=
  { isSet := fun _ => false, getBool := fun _ => false
    getString := fun _ => "", getDuration := fun _ => 0 }

/-- A configuration under which every plugin's enable flag resolves to
`false` (`plugins.enable.<key>` is set and `false`). -/
def cfgDisabled : Config :=
  { isSet := fun _ => true, getBool := fun _ => false
    getString := fun _ => "", getDuration := fun _ => 0 }

/-- A configuration with `plugins.conflict_mode = "error"`. -/
def cfgErrMode : Config :=
  { isSet := fun _ => false, getBool := fun _ => false
    getString := fun k => if k = "plugins.conflict_mode" then "error" else ""
    getDuration := fun _ => 0 }

/-- A configuration with `plugins.hook_failure_mode = "error"`. -/
def cfgHookError : Config :=
  { isSet := fun _ => false, getBool := fun _ => false
    getString := fun k => if k = "plugins.hook_failure_mode" then "error" else ""
    getDuration := fun _ => 0 }

/-- Plugin A of the scenario: display name `"X"`, unique key `"pkgA.X"`. -/
def pA : Plugin := { pkgPath := "pkgA", typeName := "X", name := "X", version := "1.0.0" }

/-- Plugin B of the scenario: display name `"X"`, unique key `"pkgB.X"`. -/
def pB : Plugin := { pkgPath := "pkgB", typeName := "X", name := "X", version := "1.0.0" }

/-- The manager state after registering `pA` under the default config. -/
def pmA : PluginManager := (Register cfgNone emptyPM pA).pm

/-- A plugin whose `OnBeforeMount` hook returns an error. -/
def pFail : Plugin :=
  { pkgPath := "pkgC", typeName := "F", name := "F", version := "1.0.0"
    beforeMount := some (.err "boom"), onShutdown := some (.err "boom") }

/-- A manager holding only `pFail`. -/
def pmFail : PluginManager := { plugins := [pFail] }

/-- A middleware state with the single group `"a"`. -/
def stA : MWState Nat := { groups := [("a", [1])] }

/-- A middleware state with groups `"a"` and `"b"`. -/
def stAB : MWState Nat := { groups := [("a", [1]), ("b", [2, 3])] }

/-- An empty request-scoped injector over `Nat` service values. -/
def injEmpty : Injector Nat := { injId := 0 }

/-! ## Helper lemmas -/

theorem lookupA_eq_none_iff {α : Type} (l : List (String × α)) (s : String) :
    lookupA l s = none ↔ s ∉ l.map Prod.fst := by
  induction l with
  | nil => simp [lookupA]
  | cons hd tl ih =>
    obtain ⟨k, v⟩ := hd
    by_cases hk : k = s
    · subst hk
      simp [lookupA]
    · simp [lookupA, hk, ih, Ne.symm hk]

theorem lookupA_isSome_of_mem {α : Type} {l : List (String × α)} {s : String}
    (h : s ∈ l.map Prod.fst) : (lookupA l s).isSome := by
  rcases ho : lookupA l s with _ | v
  · exact absurd ((lookupA_eq_none_iff l s).mp ho) (fun hn => hn h)
  · rfl

theorem mem_of_lookupA_isSome {α : Type} {l : List (String × α)} {s : String}
    (h : (lookupA l s).isSome) : s ∈ l.map Prod.fst := by
  by_contra hn
  rw [← lookupA_eq_none_iff] at hn
  rw [hn] at h
  simp [Option.isSome] at h

theorem natDigits_lt_ten (n : Nat) : ∀ d ∈ natDigits n, d < 10 := by
  induction n using Nat.strong_induction_on with
  | _ n ih =>
    intro d hd
    rw [natDigits] at hd
    by_cases h : n < 10
    · simp [h] at hd
      omega
    · simp [h] at hd
      rcases hd with hd | hd
      · exact ih (n / 10) (Nat.div_lt_self (by omega) (by omega)) d hd
      · omega

theorem foldl_natDigits (n : Nat) :
    ∀ a : Nat, (natDigits n).foldl (fun acc d => acc * 10 + d) a =
      a * 10 ^ (natDigits n).length + n := by
  induction n using Nat.strong_induction_on with
  | _ n ih =>
    intro a
    rw [natDigits]
    by_cases h : n < 10
    · simp [h, List.foldl]
    · have hrec := ih (n / 10) (Nat.div_lt_self (by omega) (by omega))
      simp only [h, if_false, List.foldl_append, List.length_append, List.foldl]
      rw [hrec a]
      have : (a * 10 ^ (natDigits (n / 10)).length + n / 10) * 10 + n % 10 =
          a * (10 ^ (natDigits (n / 10)).length * 10) + (n / 10 * 10 + n % 10) := by ring
      have h2 : n / 10 * 10 + n % 10 = n := by omega
      rw [this, h2, List.length_singleton, pow_succ]

theorem natDigits_injective : Function.Injective natDigits := by
  intro n m h
  have hn := foldl_natDigits n 0
  have hm := foldl_natDigits m 0
  rw [h] at hn
  omega

theorem digitChar10_inj_lt :
    ∀ d : Fin 10, ∀ e : Fin 10, digitChar10 d = digitChar10 e → (d : Nat) = e := by
  decide

theorem decDigits_injective : Function.Injective decDigits := by
  intro n m h
  apply natDigits_injective
  have hn := natDigits_lt_ten n
  have hm := natDigits_lt_ten m
  unfold decDigits at h
  -- compare the digit lists pointwise
  have hlen : (natDigits n).length = (natDigits m).length := by
    have := congrArg List.length h
    simpa using this
  apply List.ext_get hlen
  intro i h1 h2
  have hget : digitChar10 ((natDigits n).get ⟨i, h1⟩) =
      digitChar10 ((natDigits m).get ⟨i, h2⟩) := by
    have := congrArg (fun l => l.get? i) h
    simp only [List.get?_map] at this
    rw [List.get?_eq_get h1, List.get?_eq_get h2] at this
    simpa using this
  have hdn : (natDigits n).get ⟨i, h1⟩ < 10 :=
    hn _ (List.get_mem _ i h1)
  have hdm : (natDigits m).get ⟨i, h2⟩ < 10 :=
    hm _ (List.get_mem _ i h2)
  exact digitChar10_inj_lt ⟨_, hdn⟩ ⟨_, hdm⟩ hget

theorem String.data_mk (l : List Char) : (String.mk l).data = l := rfl

theorem data_append (a b : String) : (a ++ b).data = a.data ++ b.data := rfl

theorem decStr_injective : Function.Injective decStr := by
  intro n m h
  apply decDigits_injective
  have := congrArg String.data h
  simpa [decStr] using this
theorem dispatchHooks_no_abort (mode : String) (abortable : Bool)
    (h : abortable = false ∨ mode ≠ "error") :
    ∀ hooks : List (String × Option HookOutcome),
      dispatchHooks mode abortable hooks =
        .ok ((hooks.filter (fun e => e.2.isSome)).map Prod.fst) := by
  have hcond : ¬ (abortable = true ∧ mode = "error") := by
    rcases h with h | h
    · simp [h]
    · simp [h]
  intro hooks
  induction hooks with
  | nil => rfl
  | cons hd tl ih =>
    obtain ⟨k, o⟩ := hd
    match o with
    | none => simpa [dispatchHooks, List.filter] using ih
    | some .ok => simp [dispatchHooks, List.filter, ih, Except.map]
    | some (.err m) => simp [dispatchHooks, List.filter, hcond, ih, Except.map]
    | some (.panics m) => simp [dispatchHooks, List.filter, hcond, ih, Except.map]

theorem dispatchHooks_error_aborts (hooks : List (String × Option HookOutcome))
    (h : ∃ e ∈ hooks, ∃ o, e.2 = some o ∧ o ≠ HookOutcome.ok) :
    ∃ m, dispatchHooks "error" true hooks = .error m := by
  induction hooks with
  | nil => simp at h
  | cons hd tl ih =>
    obtain ⟨k, o⟩ := hd
    rcases h with ⟨e, he, o', ho', hne⟩
    rcases List.mem_cons.mp he with rfl | htl
    · simp only at ho'
      subst ho'
      match o', hne with
      | HookOutcome.err m, _ =>
        exact ⟨"plugin hook failed: " ++ m, by simp [dispatchHooks]⟩
      | HookOutcome.panics m, _ =>
        exact ⟨"plugin panic in hook: " ++ m, by simp [dispatchHooks]⟩
    · have hex : ∃ e ∈ tl, ∃ o, e.2 = some o ∧ o ≠ HookOutcome.ok := ⟨e, htl, o', ho', hne⟩
      obtain ⟨m, hm⟩ := ih hex
      match o with
      | none => exact ⟨m, by simpa [dispatchHooks] using hm⟩
      | some HookOutcome.ok => exact ⟨m, by simp [dispatchHooks, hm, Except.map]⟩
      | some (HookOutcome.err m2) =>
        exact ⟨"plugin hook failed: " ++ m2, by simp [dispatchHooks]⟩
      | some (HookOutcome.panics m2) =>
        exact ⟨"plugin panic in hook: " ++ m2, by simp [dispatchHooks]⟩

theorem implementers_eq (f : Plugin → Option HookOutcome) (ps : List Plugin) :
    ((ps.map (fun p => (pluginKey p, f p))).filter (fun e => e.2.isSome)).map Prod.fst =
      implementers f ps := by
  induction ps with
  | nil => rfl
  | cons p tl ih =>
    by_cases hp : (f p).isSome
    · simp [List.filter, hp, implementers, List.filter_cons] at ih ⊢
      exact ih
    · simp only [Bool.not_eq_true] at hp
      simp [List.filter, hp, implementers, List.filter_cons] at ih ⊢
      exact ih

theorem OnShutdown_eq (cfg : Config) (pm : PluginManager) :
    OnShutdown cfg pm = .ok (implementers Plugin.onShutdown pm.plugins) := by
  rw [OnShutdown, dispatchHooks_no_abort _ _ (Or.inl rfl), implementers_eq]

theorem aliasCand_injective (a : String) : Function.Injective (aliasCand a) := by
  intro n m h
  apply decDigits_injective
  have hd := congrArg String.data h
  simp only [aliasCand, data_append] at hd
  have := List.append_cancel_left hd
  exact this

theorem makeAliasUniqueGo_free (ai : List (String × String)) (a : String) :
    ∀ fuel k : Nat, (∃ j, k ≤ j ∧ j < k + fuel ∧ lookupA ai (aliasCand a j) = none) →
      lookupA ai (makeAliasUniqueGo ai a fuel k) = none := by
  intro fuel
  induction fuel with
  | zero =>
    rintro k ⟨j, hj1, hj2, _⟩
    omega
  | succ f ih =>
    rintro k ⟨j, hj1, hj2, hfree⟩
    rw [makeAliasUniqueGo]
    by_cases hc : lookupA ai (aliasCand a k) = none
    · simp [hc]
    · simp only [hc, if_false]
      apply ih (k + 1)
      refine ⟨j, ?_, by omega, hfree⟩
      rcases Nat.eq_or_lt_of_le hj1 with he | hl
      · subst he
        exact absurd hfree hc
      · omega

theorem exists_free_cand (ai : List (String × String)) (a : String) :
    ∃ j, 2 ≤ j ∧ j < 2 + (ai.length + 1) ∧ lookupA ai (aliasCand a j) = none := by
  by_contra hcon
  push_neg at hcon
  have hsub : ((List.range' 2 (ai.length + 1)).map (aliasCand a)) ⊆ ai.map Prod.fst := by
    intro x hx
    rw [List.mem_map] at hx
    obtain ⟨j, hj, rfl⟩ := hx
    rw [List.mem_range'_1] at hj
    have hne := hcon j hj.1 (by omega)
    have : (lookupA ai (aliasCand a j)).isSome := by
      rcases hopt : lookupA ai (aliasCand a j) with _ | v
      · exact absurd hopt hne
      · rfl
    exact mem_of_lookupA_isSome this
  have hnd : ((List.range' 2 (ai.length + 1)).map (aliasCand a)).Nodup :=
    (List.nodup_range' 2 (ai.length + 1)).map (aliasCand_injective a)
  have hsp := List.subperm_of_subset hnd hsub
  have hlen := hsp.length_le
  simp only [List.length_map, List.length_range'] at hlen
  omega

theorem makeAliasUnique_fresh (ai : List (String × String)) (a : String) :
    lookupA ai (makeAliasUnique ai a) = none := by
  rw [makeAliasUnique]
  exact makeAliasUniqueGo_free ai a (ai.length + 1) 2 (exists_free_cand ai a)

/-- Single-registration case analysis: `Register` either leaves the state
unchanged (disabled / rejected / `Init` failed), or records the plugin
with an alias that is absent from `aliasIndex` whenever it is nonempty,
under a key that is absent from `index`. -/
theorem register_cases (cfg : Config) (pm : PluginManager) (p : Plugin) :
    (∃ r, Register cfg pm p = { err := r, pm := pm, initCalled := false }) ∨
    (∃ e, Register cfg pm p = { err := some e, pm := pm, initCalled := true }) ∨
    (∃ a, (a ≠ "" → lookupA pm.aliasIndex a = none) ∧
      lookupA pm.index (pluginKey p) = none ∧
      Register cfg pm p =
        ⟨none, recordPlugin pm p (pluginKey p) p.name (getA pm.nameIndex p.name []) a,
          true⟩) := by
  by_cases h1 : pluginEnabled cfg (pluginKey p)
  · by_cases h2 : (lookupA pm.index (pluginKey p)).isSome
    · exact Or.inl ⟨some (ErrDuplicatePlugin (pluginKey p)), by simp [Register, h1, h2]⟩
    · have h2n : lookupA pm.index (pluginKey p) = none := by
        rcases hopt : lookupA pm.index (pluginKey p) with _ | v
        · rfl
        · exact absurd (by rw [hopt]; rfl) h2
      set minEngine := (match p.minEngineVersion with
        | none => ""
        | some s => trimSpace s) with hme
      set vr : Bool := (if minEngine = "" then false
        else match parseSemver engineVersion, parseSemver minEngine with
          | some cur, some lo =>
            if semverGE cur lo then false else cfg.getBool "plugins.compat.strict"
          | _, _ => false) with hvr
      by_cases h3 : vr
      · refine Or.inl ⟨some ("engine version " ++ engineVersion ++ " does not satisfy >= "
          ++ minEngine ++ " for plugin " ++ p.name), ?_⟩
        simp only [Register, ← hme, ← hvr]
        simp [h1, h2, h3]
      · set alias0 := normalizeAlias (cfg.getString ("plugins.aliases." ++ pluginKey p))
          with ha0
        set cks := getA pm.nameIndex p.name [] with hcks
        by_cases h4 : alias0 = "" ∧ cks ≠ [] ∧ conflictMode cfg = "error"
        · exact Or.inl ⟨some (ErrDuplicatePlugin p.name),
            by simp only [Register, ← hme, ← hvr, ← ha0, ← hcks]; simp [h1, h2, h3, h4]⟩
        · set alias1 := (if alias0 = "" ∧ cks ≠ [] then
            generateAlias pm.aliasIndex p.name (pluginKey p) else alias0) with ha1
          set alias2 := (if alias1 ≠ "" ∧ (lookupA pm.aliasIndex alias1).isSome
            then makeAliasUnique pm.aliasIndex alias1 else alias1) with ha2
          have hfresh : alias2 ≠ "" → lookupA pm.aliasIndex alias2 = none := by
            intro hne
            by_cases h5 : alias1 ≠ "" ∧ (lookupA pm.aliasIndex alias1).isSome
            · rw [ha2, if_pos h5]
              exact makeAliasUnique_fresh pm.aliasIndex alias1
            · rw [ha2, if_neg h5]
              rw [ha2, if_neg h5] at hne
              rcases hopt : lookupA pm.aliasIndex alias1 with _ | v
              · rfl
              · exact absurd ⟨hne, by rw [hopt]; rfl⟩ h5
          rcases hie : p.initErr with _ | e
          · refine Or.inr (Or.inr ⟨alias2, hfresh, h2n, ?_⟩)
            simp only [Register, ← hme, ← hvr, ← ha0, ← hcks, ← ha1, ← ha2]
            simp [h1, h2, h3, h4, hie]
          · refine Or.inr (Or.inl ⟨e, ?_⟩)
            simp only [Register, ← hme, ← hvr, ← ha0, ← hcks, ← ha1, ← ha2]
            simp [h1, h2, h3, h4, hie]
  · exact Or.inl ⟨none, by simp [Register, h1]⟩

theorem register_preserves_aliasInv (cfg : Config) (pm : PluginManager) (p : Plugin)
    (h : AliasInv pm) : AliasInv (Register cfg pm p).pm := by
  rcases register_cases cfg pm p with ⟨r, hr⟩ | ⟨e, hr⟩ | ⟨a, hfresh, _, hr⟩
  · rw [hr]; exact h
  · rw [hr]; exact h
  · rw [hr]
    by_cases ha : a = ""
    · subst ha
      simpa [AliasInv, recordPlugin] using h
    · have hnotmem : a ∉ pm.aliasIndex.map Prod.fst :=
        (lookupA_eq_none_iff _ _).mp (hfresh ha)
      constructor
      · simp [recordPlugin, ha, h.1]
      · simp only [recordPlugin, ha, ne_eq, not_false_eq_true, if_true, List.map_cons,
          List.nodup_cons]
        exact ⟨hnotmem, h.2⟩

theorem registerAll_aliasInv (cfg : Config) (ps : List Plugin) :
    AliasInv (registerAll cfg ps) := by
  have hfold : ∀ pm, AliasInv pm →
      AliasInv (ps.foldl (fun pm p => (Register cfg pm p).pm) pm) := by
    induction ps with
    | nil => intro pm h; exact h
    | cons p tl ih =>
      intro pm h
      exact ih _ (register_preserves_aliasInv cfg pm p h)
  exact hfold emptyPM ⟨rfl, List.nodup_nil⟩

/-! ## Claim theorems -/

/-- C1: under any configuration (in particular the default `alias`
conflict mode) every sequence of registrations from a fresh manager
assigns pairwise-distinct aliases; every registration that succeeds with
its `Init` invoked lands the plugin in `List()`; and in the concrete
scenario, registering plugin A (name "X", key "pkgA.X") then plugin B
(name "X", key "pkgB.X") under the default configuration gives B the
alias "X@pkgB" and both plugins appear in `List()`. -/
theorem alias_distinct_and_listed :
    (∀ (cfg : Config) (ps : List Plugin),
        ((registerAll cfg ps).aliasOf.map Prod.snd).Nodup)
    ∧ (∀ (cfg : Config) (pm : PluginManager) (p : Plugin),
        (Register cfg pm p).err = none → (Register cfg pm p).initCalled = true →
        p ∈ ListPlugins (Register cfg pm p).pm)
    ∧ ((Register cfgNone pmA pB).err = none
        ∧ lookupA (Register cfgNone pmA pB).pm.aliasOf "pkgB.X" = some "X@pkgB"
        ∧ pA ∈ ListPlugins (Register cfgNone pmA pB).pm
        ∧ pB ∈ ListPlugins (Register cfgNone pmA pB).pm) := by
  refine ⟨?_, ?_, ?_⟩
  · intro cfg ps
    have h := registerAll_aliasInv cfg ps
    rw [h.1]
    exact h.2
  · intro cfg pm p he hi
    rcases register_cases cfg pm p with ⟨r, hr⟩ | ⟨e, hr⟩ | ⟨a, _, _, hr⟩
    · rw [hr] at hi
      simp at hi
    · rw [hr] at he
      simp at he
    · rw [hr]
      simp [ListPlugins, recordPlugin]
  · refine ⟨by decide, by decide, by decide, by decide⟩

/-- C1 witness: the success clause applied at plugin B registered after A
under the default configuration. -/
theorem alias_distinct_and_listed_witness :
    pB ∈ ListPlugins (Register cfgNone pmA pB).pm :=
  alias_distinct_and_listed.2.1 cfgNone pmA pB (by decide) (by decide)

/-- C2: an enabled plugin whose implementation key is already registered
is rejected with the duplicate-plugin error, `Init` is not called and the
manager is unchanged; under `error` conflict mode a colliding display
name (with no alias override) is likewise rejected with the manager
unchanged and `Init` not called; and key-uniqueness of the index is
preserved by every registration. -/
theorem register_rejection (cfg : Config) (pm : PluginManager) (p : Plugin) :
    (pluginEnabled cfg (pluginKey p) = true →
      (lookupA pm.index (pluginKey p)).isSome →
      Register cfg pm p = ⟨some (ErrDuplicatePlugin (pluginKey p)), pm, false⟩)
    ∧ (pluginEnabled cfg (pluginKey p) = true →
      lookupA pm.index (pluginKey p) = none →
      conflictMode cfg = "error" →
      normalizeAlias (cfg.getString ("plugins.aliases." ++ pluginKey p)) = "" →
      getA pm.nameIndex p.name [] ≠ [] →
      (Register cfg pm p).err.isSome ∧ (Register cfg pm p).pm = pm ∧
        (Register cfg pm p).initCalled = false)
    ∧ ((pm.index.map Prod.fst).Nodup →
        ((Register cfg pm p).pm.index.map Prod.fst).Nodup) := by
  refine ⟨?_, ?_, ?_⟩
  · intro h1 h2
    simp [Register, h1, h2]
  · intro h1 h2 h3 h4 h5
    have h2s : ¬ (lookupA pm.index (pluginKey p)).isSome := by
      rw [h2]
      simp
    set minEngine := (match p.minEngineVersion with
      | none => ""
      | some s => trimSpace s) with hme
    set vr : Bool := (if minEngine = "" then false
      else match parseSemver engineVersion, parseSemver minEngine with
        | some cur, some lo =>
          if semverGE cur lo then false else cfg.getBool "plugins.compat.strict"
        | _, _ => false) with hvr
    by_cases h6 : vr
    · have hreg : Register cfg pm p = ⟨some ("engine version " ++ engineVersion
          ++ " does not satisfy >= " ++ minEngine ++ " for plugin " ++ p.name), pm, false⟩ := by
        simp only [Register, ← hme, ← hvr]
        simp [h1, h2s, h6]
      rw [hreg]
      exact ⟨rfl, rfl, rfl⟩
    · have hreg : Register cfg pm p = ⟨some (ErrDuplicatePlugin p.name), pm, false⟩ := by
        simp only [Register, ← hme, ← hvr]
        simp [h1, h2s, h6, h3, h4, h5]
      rw [hreg]
      exact ⟨rfl, rfl, rfl⟩
  · intro hnd
    rcases register_cases cfg pm p with ⟨r, hr⟩ | ⟨e, hr⟩ | ⟨a, _, hkey, hr⟩
    · rw [hr]; exact hnd
    · rw [hr]; exact hnd
    · rw [hr]
      simp only [recordPlugin, List.map_cons, List.nodup_cons]
      exact ⟨(lookupA_eq_none_iff _ _).mp hkey, hnd⟩

/-- C2 witness: registering plugin A a second time is rejected with the
duplicate-plugin error and leaves the manager unchanged. -/
theorem register_rejection_witness :
    Register cfgNone pmA pA = ⟨some (ErrDuplicatePlugin (pluginKey pA)), pmA, false⟩ :=
  (register_rejection cfgNone pmA pA).1 (by decide) (by decide)

/-- C10: a plugin whose enabled flag resolves to `false` is skipped:
`Register` returns `nil` (success), `Init` is not called, the manager is
unchanged, so the plugin appears in none of the lookup structures and not
in `List()` (unless it was already there). -/
theorem disabled_plugin_noop (cfg : Config) (pm : PluginManager) (p : Plugin)
    (h : pluginEnabled cfg (pluginKey p) = false) :
    Register cfg pm p = ⟨none, pm, false⟩
    ∧ (p ∉ ListPlugins pm → p ∉ ListPlugins (Register cfg pm p).pm)
    ∧ lookupA (Register cfg pm p).pm.index (pluginKey p) = lookupA pm.index (pluginKey p)
    ∧ (∀ s, lookupA (Register cfg pm p).pm.aliasIndex s = lookupA pm.aliasIndex s)
    ∧ (∀ n, getA (Register cfg pm p).pm.nameIndex n [] = getA pm.nameIndex n []) := by
  have hreg : Register cfg pm p = ⟨none, pm, false⟩ := by
    simp [Register, h]
  refine ⟨hreg, ?_, ?_, ?_, ?_⟩ <;> simp [hreg, ListPlugins]

/-- C10 witness: under a configuration disabling every plugin, plugin A
is skipped with a `nil` result and an untouched, empty manager. -/
theorem disabled_plugin_noop_witness :
    Register cfgDisabled emptyPM pA = ⟨none, emptyPM, false⟩ :=
  (disabled_plugin_noop cfgDisabled emptyPM pA (by decide)).1

/-- C6: the default hook failure mode is `warn`; under `warn` every
lifecycle phase runs the implementing plugins in registration order
(non-implementers skipped as no-ops) and never aborts even on failures;
under `error` a failing or panicking hook aborts the startup phases; the
shutdown phase never aborts regardless of mode. -/
theorem lifecycle_dispatch (cfg : Config) (pm : PluginManager) :
    (cfg.getString "plugins.hook_failure_mode" = "" → hookFailureMode cfg = "warn")
    ∧ (hookFailureMode cfg = "warn" →
        OnBeforeMount cfg pm = .ok (implementers Plugin.beforeMount pm.plugins)
        ∧ OnAfterMount cfg pm = .ok (implementers Plugin.afterMount pm.plugins)
        ∧ OnBeforeServerStart cfg pm = .ok (implementers Plugin.beforeServerStart pm.plugins))
    ∧ (hookFailureMode cfg = "error" →
        ((∃ p ∈ pm.plugins, ∃ o, p.beforeMount = some o ∧ o ≠ HookOutcome.ok) →
          ∃ m, OnBeforeMount cfg pm = .error m)
        ∧ ((∃ p ∈ pm.plugins, ∃ o, p.afterMount = some o ∧ o ≠ HookOutcome.ok) →
          ∃ m, OnAfterMount cfg pm = .error m)
        ∧ ((∃ p ∈ pm.plugins, ∃ o, p.beforeServerStart = some o ∧ o ≠ HookOutcome.ok) →
          ∃ m, OnBeforeServerStart cfg pm = .error m))
    ∧ OnShutdown cfg pm = .ok (implementers Plugin.onShutdown pm.plugins) := by
  have hw : ("warn" : String) ≠ "error" := by decide
  refine ⟨?_, ?_, ?_, OnShutdown_eq cfg pm⟩
  · intro h
    unfold hookFailureMode
    rw [h]
    rfl
  · intro h
    refine ⟨?_, ?_, ?_⟩
    · unfold OnBeforeMount
      rw [h, dispatchHooks_no_abort _ _ (Or.inr hw), implementers_eq]
    · unfold OnAfterMount
      rw [h, dispatchHooks_no_abort _ _ (Or.inr hw), implementers_eq]
    · unfold OnBeforeServerStart
      rw [h, dispatchHooks_no_abort _ _ (Or.inr hw), implementers_eq]
  · intro h
    refine ⟨?_, ?_, ?_⟩
    · rintro ⟨p, hp, o, ho, hne⟩
      unfold OnBeforeMount
      rw [h]
      exact dispatchHooks_error_aborts _
        ⟨(pluginKey p, p.beforeMount), List.mem_map_of_mem _ hp, o, ho, hne⟩
    · rintro ⟨p, hp, o, ho, hne⟩
      unfold OnAfterMount
      rw [h]
      exact dispatchHooks_error_aborts _
        ⟨(pluginKey p, p.afterMount), List.mem_map_of_mem _ hp, o, ho, hne⟩
    · rintro ⟨p, hp, o, ho, hne⟩
      unfold OnBeforeServerStart
      rw [h]
      exact dispatchHooks_error_aborts _
        ⟨(pluginKey p, p.beforeServerStart), List.mem_map_of_mem _ hp, o, ho, hne⟩

/-- C6 witness: under the default configuration (warn mode) the failing
plugin's before-mount hook is invoked and dispatch still completes. -/
theorem lifecycle_dispatch_witness :
    OnBeforeMount cfgNone pmFail = .ok ["pkgC.F"] :=
  (((lifecycle_dispatch cfgNone pmFail).2.1 (by decide)).1).trans rfl

/-- C3 (amended): a group created by `CreateGroupFromGroups` from two
distinct existing groups stores exactly the concatenation of their
handler lists; an attempt to flatten an existing group into itself is
rejected with the duplicate-name error (the target name already exists),
while repeating a source group in one call trips the visited-set
(cycle-detection) error; flattening always terminates. -/
theorem group_flatten_concat :
    (∀ (H : Type) (st : MWState H) (n gn1 gn2 : String) (h1 h2 : List H),
        n ≠ "" → lookupA st.groups n = none → gn1 ≠ gn2 →
        lookupA st.groups gn1 = some h1 → lookupA st.groups gn2 = some h2 →
        CreateGroupFromGroups st n [gn1, gn2] =
          .ok { st with groups := (n, h1 ++ h2) :: st.groups })
    ∧ (∀ (H : Type) (st : MWState H) (g : String) (names : List String),
        g ≠ "" → (lookupA st.groups g).isSome →
        CreateGroupFromGroups st g names = .error .duplicateName)
    ∧ (∀ (H : Type) (st : MWState H) (n g : String) (hs : List H),
        n ≠ "" → lookupA st.groups n = none → lookupA st.groups g = some hs →
        CreateGroupFromGroups st n [g, g] = .error .invalidMerge) := by
  refine ⟨?_, ?_, ?_⟩
  · intro H st n gn1 gn2 h1 h2 hn hnone hne hg1 hg2
    have hns : ¬ (lookupA st.groups n).isSome := by
      rw [hnone]
      simp
    have hf : flattenGroupsLocked st.groups [gn1, gn2] [] = .ok (h1 ++ (h2 ++ [])) := by
      simp [flattenGroupsLocked, hg1, hg2, Ne.symm hne, Except.map]
    simp [CreateGroupFromGroups, hn, hns, hf]
  · intro H st g names hg hsome
    simp [CreateGroupFromGroups, hg, hsome]
  · intro H st n g hs hn hnone hg
    have hns : ¬ (lookupA st.groups n).isSome := by
      rw [hnone]
      simp
    have hf : flattenGroupsLocked st.groups [g, g] [] = .error .invalidMerge := by
      simp [flattenGroupsLocked, hg, Except.map]
    simp [CreateGroupFromGroups, hn, hns, hf]

/-- C3 witness: flattening groups `"a"` and `"b"` into `"c"` stores the
concatenation `[1, 2, 3]`. -/
theorem group_flatten_concat_witness :
    CreateGroupFromGroups stAB "c" ["a", "b"] =
      .ok { stAB with groups := ("c", [1, 2, 3]) :: stAB.groups } :=
  (group_flatten_concat.1 Nat stAB "c" "a" "b" [1] [2, 3] (by decide) (by decide)
    (by decide) (by decide) (by decide)).trans rfl

/-- C3 counterexample: flattening group `"a"` into itself fails with the
duplicate-name error, not the cycle-detection (`invalidMerge`) error the
claim names. -/
theorem group_flatten_cycle_cex :
    CreateGroupFromGroups stA "a" ["a"] = .error .duplicateName
    ∧ MWError.duplicateName ≠ MWError.invalidMerge :=
  ⟨rfl, by decide⟩

/-- Chain events are never shutdown events. -/
theorem filter_isShutdown_chainSteps (l : List Nat) :
    (l.map REvent.chainStep).filter REvent.isShutdown = [] := by
  induction l with
  | nil => rfl
  | cons x xs ih => simp [List.filter, REvent.isShutdown, ih]

/-- C4: each request gets a fresh injector populated with the engine's
shared singletons plus the request-identity record; resolving a shared
service always yields the engine's singleton instance; two consecutive
requests receive containers with distinct identities; and the container
is shut down exactly once, after the handler chain completes. -/
theorem request_container_lifecycle {V : Type} (e : EngineServices V) (m1 m2 : V)
    (c : Nat) (ch1 ch2 : List Nat) :
    (handleRequest e m1 c ch1).2 = c + 1
    ∧ ((handleRequest e m1 c ch1).1.1.injId ≠
        (handleRequest e m2 (handleRequest e m1 c ch1).2 ch2).1.1.injId)
    ∧ invokeService (requestInjector e m1 c) "config" = some e.config
    ∧ invokeService (requestInjector e m1 c) "logger" = some e.logger
    ∧ invokeService (requestInjector e m1 c) "db" = some e.db
    ∧ invokeService (requestInjector e m1 c) "eventBus" = some e.eventBus
    ∧ invokeService (requestInjector e m1 c) "pool" = some e.pool
    ∧ invokeService (requestInjector e m1 c) "enforcer" = some e.enforcer
    ∧ invokeService (requestInjector e m1 c) "authManager" = some e.authManager
    ∧ invokeService (requestInjector e m1 c) "RequestMeta" = some m1
    ∧ invokeService (requestInjector e m2 (c + 1)) "RequestMeta" = some m2
    ∧ invokeService (requestInjector e m2 (c + 1)) "config" = some e.config
    ∧ (handleRequest e m1 c ch1).1.2.head? = some (REvent.containerCreated c)
    ∧ ((handleRequest e m1 c ch1).1.2.filter REvent.isShutdown)
        = [REvent.containerShutdown c]
    ∧ (handleRequest e m1 c ch1).1.2.getLast? = some (REvent.containerShutdown c) := by
  refine ⟨rfl, ?_, rfl, rfl, rfl, rfl, rfl, rfl, rfl, rfl, rfl, rfl, rfl, ?_, ?_⟩
  · simp [handleRequest, containerMiddleware, requestInjector, provideValue, doPackage]
  · simp [handleRequest, containerMiddleware, List.filter, REvent.isShutdown,
      List.filter_append, filter_isShutdown_chainSteps]
  · show (REvent.containerCreated c :: (ch1.map REvent.chainStep
      ++ [REvent.containerShutdown c])).getLast? = some (REvent.containerShutdown c)
    rw [← List.cons_append]
    exact List.getLast?_concat _

/-- C5 (amended): asking `Invoke` for a service type that is not
registered in the request scope is fatal to the request: the
`do.MustInvokeStruct` panic unwinds past the error-handler middleware and
`ginRecovery` answers with a bare HTTP 500 — an internal error, not a
silently-ignored failure, but also not the structured envelope. -/
theorem missing_service_bare_500 {V R : Type} (trans : Option (FieldErr → String))
    (inj : Injector V) (ty : String) (handle : V → Except AbeError R)
    (h : invokeService inj ty = none) :
    invokePipeline trans inj ty handle = .bare 500
    ∧ invokePipeline trans inj ty handle ≠ .untouched := by
  constructor
  · simp [invokePipeline, mustInvokeStruct, h]
  · simp [invokePipeline, mustInvokeStruct, h]

/-- C5 witness: the amended claim at a concrete empty injector. -/
theorem missing_service_bare_500_witness :
    invokePipeline (R := Nat) none injEmpty "UseCase" (fun _ => Except.ok 0) = .bare 500 :=
  (missing_service_bare_500 none injEmpty "UseCase" (fun _ => Except.ok 0) rfl).1

/-- C5 counterexample: at a concrete request whose use-case service is
not registered, the response is a bare 500 status with no body — not a
structured response from the uniform error envelope, contrary to the
claim. -/
theorem missing_service_cex :
    invokePipeline (R := Nat) none injEmpty "UseCase" (fun _ => Except.ok 0) = .bare 500
    ∧ (HTTPOutcome.bare 500).isEnvelope = false :=
  ⟨by decide, by decide⟩

/-- C7: the shutdown sequence always runs plugin hooks, cron stop, HTTP
drain (with the configured timeout, defaulting to 5s when unset or
non-positive), event-bus close (errors only logged) and pool release in
that fixed order; an HTTP drain failure aborts the process by panic
before the remaining steps. -/
theorem shutdown_sequence (cfg : Config) (pm : PluginManager) (env : ShutdownEnv) :
    (env.httpDrainErr = none →
      engineShutdown cfg pm env =
        ([SStep.pluginShutdownHooks (implementers Plugin.onShutdown pm.plugins),
          SStep.cronStopWait, SStep.httpServerShutdown (effectiveShutdownTimeout cfg),
          SStep.eventBusClose env.eventBusCloseErr, SStep.poolRelease], none))
    ∧ (∀ er, env.httpDrainErr = some er →
        engineShutdown cfg pm env =
          ([SStep.pluginShutdownHooks (implementers Plugin.onShutdown pm.plugins),
            SStep.cronStopWait], some ("优雅退出服务器失败：" ++ er)))
    ∧ (cfg.getDuration "server.shutdown_timeout" ≤ 0 →
        effectiveShutdownTimeout cfg = 5000000000) := by
  refine ⟨?_, ?_, ?_⟩
  · intro h
    simp [engineShutdown, OnShutdown_eq, h]
  · intro er h
    simp [engineShutdown, OnShutdown_eq, h]
  · intro h
    simp [effectiveShutdownTimeout, defaultShutdownTimeoutNanos, h]

/-- C7 witness: with nothing configured and no drain failure, the five
steps run in order with the 5-second default timeout. -/
theorem shutdown_sequence_witness :
    engineShutdown cfgNone emptyPM {} =
      ([SStep.pluginShutdownHooks [], SStep.cronStopWait,
        SStep.httpServerShutdown 5000000000, SStep.eventBusClose none,
        SStep.poolRelease], none) :=
  ((shutdown_sequence cfgNone emptyPM {}).1 rfl).trans (by decide)

/-- C8: the error-handler middleware classifies exactly the last
collected error into the envelope; the HTTP status mapping is
401/403/404/409/429/500/504 for unauthorized, forbidden,
record-not-found, duplicate-key, rate-limit, internal and
deadline-exceeded errors; and the business code is independent of the
HTTP status (same status with different codes, same code with different
statuses). -/
theorem error_envelope_classification :
    (∀ (trans : Option (FieldErr → String)) (errs : List AbeError) (e : AbeError),
        errs.getLast? = some e →
        errorHandlerMiddleware trans errs = some (determineHTTPStatus e, classifyError trans e))
    ∧ determineHTTPStatus .sentinelUnauthorized = 401
    ∧ determineHTTPStatus .sentinelForbidden = 403
    ∧ determineHTTPStatus .gormRecordNotFound = 404
    ∧ determineHTTPStatus .gormDuplicatedKey = 409
    ∧ (∀ s r rate b ra, determineHTTPStatus (.rateLimitError s r rate b ra) = 429)
    ∧ determineHTTPStatus .sentinelInternal = 500
    ∧ determineHTTPStatus .ctxDeadlineExceeded = 504
    ∧ (classifyError none (.validationError "m" [])).code
        ≠ (classifyError none (.invalidJSONError "r")).code
    ∧ determineHTTPStatus (.validationError "m" [])
        = determineHTTPStatus (.invalidJSONError "r")
    ∧ (classifyError none (.validationError "m" [])).code
        = (classifyError none .sentinelInternal).code
    ∧ determineHTTPStatus (.validationError "m" []) ≠ determineHTTPStatus .sentinelInternal := by
  refine ⟨?_, rfl, rfl, rfl, rfl, fun s r rate b ra => rfl, rfl, rfl,
    by decide, rfl, rfl, by decide⟩
  intro trans errs e h
  rw [errorHandlerMiddleware, h]

/-- C8 witness: a request ending with the unauthorized sentinel as its
last collected error answers 401 with business code 2001. -/
theorem error_envelope_classification_witness :
    errorHandlerMiddleware none [AbeError.sentinelUnauthorized] =
      some (401, { code := 2001, message := "未授权", details := [] }) :=
  (error_envelope_classification.1 none [AbeError.sentinelUnauthorized]
    AbeError.sentinelUnauthorized rfl).trans (by decide)

/-- C9: two `AddController` calls followed by the one-time mount register
both provider sets exactly once, in call order; with disjoint
duplicate-free sets each provider is mounted exactly once; and a later
invocation of the mount step is inert. -/
theorem controllers_mounted_once {C : Type} (ps1 ps2 : List C) :
    (mountControllers (AddController (AddController ({} : ControllerState C) ps1) ps2)).mounted
      = ps1 ++ ps2
    ∧ (ps1.Nodup → ps2.Nodup → ps1.Disjoint ps2 →
        (mountControllers (AddController (AddController ({} : ControllerState C) ps1)
          ps2)).mounted.Nodup)
    ∧ mountControllers (mountControllers (AddController
        (AddController ({} : ControllerState C) ps1) ps2))
      = mountControllers (AddController (AddController ({} : ControllerState C) ps1) ps2) := by
  have h1 : AddController (AddController ({} : ControllerState C) ps1) ps2 =
      { controllerRegistry := ps1 ++ ps2 } := by
    cases ps1 <;> cases ps2 <;> simp [AddController]
  rw [h1]
  refine ⟨by simp [mountControllers], ?_, by simp [mountControllers]⟩
  intro hn1 hn2 hd
  simp only [mountControllers, Bool.false_eq_true, if_false]
  exact List.nodup_append.mpr ⟨hn1, hn2, hd⟩

/-- C9 witness: two disjoint singleton provider sets are each mounted
exactly once. -/
theorem controllers_mounted_once_witness :
    (mountControllers (AddController (AddController ({} : ControllerState Nat) [1])
      [2])).mounted.Nodup :=
  (controllers_mounted_once [1] [2]).2.1 (by decide) (by decide)
    (by intro a ha hb; simp at ha hb; omega)

end Abe

